import Mathlib

/-!
Verification of the field/schema deserialization core of the Validate-schema
repository: a shallow embedding of fields.py, schema/schema.py,
class_registry.py and validate.py, with theorems about the claims of the
natural-language specification.
-/

/-- Python-like runtime values flowing through field deserialization.
The missing constructor models the module-level missing sentinel defined in
utils.py (class _Missing, whose bool conversion is False). -/
inductive PyVal where
  | none
  | missing
  | str (s : String)
  | int (n : Int)
  | bool (b : Bool)
  | list (xs : List PyVal)

/-- Python truthiness for the embedded values: None and the missing sentinel
are falsy, strings and lists are truthy when non-empty, numbers when
non-zero. -/
def pyTruthy : PyVal → Bool
  | PyVal.none => false
  | PyVal.missing => false
  | PyVal.str s => !(s == "")
  | PyVal.int n => !(n == 0)
  | PyVal.bool b => b
  | PyVal.list xs => !xs.isEmpty

/-- The guard repeated at fields.py lines 105 and 127:
value is missing_ or value == '' or value is None. Only a string compares
equal to the empty string, and identity with the sentinel or with None is
constructor identity. -/
def isMissingEmptyNone : PyVal → Bool
  | PyVal.missing => true
  | PyVal.none => true
  | PyVal.str s => s == ""
  | _ => false

/-- Python identity test with the False object, used by And.__call__
(validate.py line 50: r is False). -/
def isFalseLit : PyVal → Bool
  | PyVal.bool b => !b
  | _ => false

/-- The exception classes imported from rest_framework.exceptions and raised
by the core: ValidationError, ParseError (the RequiredError of the spec
taxonomy) and the base APIException. ParseError and ValidationError are
sibling subclasses of APIException, so an except-ValidationError clause does
not catch a ParseError. -/
inductive ErrKind where
  | validation
  | parse
  | api
deriving DecidableEq

/-- A raised exception: its class together with its detail message. -/
structure Err where
  kind : ErrKind
  detail : String
deriving DecidableEq

/-- The default of a field (fields.py line 63, load_default): either a plain
value or a zero-argument callable producer, with the missing sentinel as the
plain value standing for no default. -/
inductive DefaultVal where
  | val (v : PyVal)
  | producer (f : Unit → PyVal)

/-- Python truthiness of the stored default: callables are always truthy. -/
def DefaultVal.truthy : DefaultVal → Bool
  | DefaultVal.val v => pyTruthy v
  | DefaultVal.producer _ => true

/-- fields.py line 129: miss() if callable(miss) else miss. -/
def DefaultVal.invoke : DefaultVal → PyVal
  | DefaultVal.val v => v
  | DefaultVal.producer f => f ()

/-- One entry of a validator chain: whether the callable is an instance of
the Validator base class, and the callable itself, which may raise or return
a value. -/
structure ValidatorSpec where
  isValidatorInst : Bool
  run : PyVal → String → Except Err PyVal

/-- validate.py lines 47-54, And.__call__: run each validator on the input
value; a plain callable (not a Validator instance) whose result is the False
object aborts with a ValidationError; the returned result is otherwise
ignored, and the ORIGINAL input value is returned at the end. -/
def andCall (vs : List ValidatorSpec) (value : PyVal) (name : String) :
    Except Err PyVal :=
  match vs with
  | [] => Except.ok value
  | v :: rest =>
    match v.run value name with
    | Except.error e => Except.error e
    | Except.ok r =>
      if !v.isValidatorInst && isFalseLit r then
        Except.error ⟨ErrKind.validation, "Invalid arguments"⟩
      else andCall rest value name

/-- A bound field as deserialization sees it: the bound name, requiredness,
default, validator chain, and the subclass coercion hook _deserialize.
No concrete field kind of the repository inspects the attr and data
arguments of _deserialize, so the hook takes the value alone. -/
structure PyField where
  name : String
  required : Bool
  load_default : DefaultVal
  validators : List ValidatorSpec
  impl : PyVal → Except Err PyVal

/-- fields.py lines 101-110, Field._validate_missing: when the value is
missing, empty or None and the field is required, a truthy default lets it
pass and otherwise a ParseError naming the field is raised. -/
def validateMissing (f : PyField) (value : PyVal) : Except Err Unit :=
  if isMissingEmptyNone value && f.required then
    if f.load_default.truthy then Except.ok ()
    else Except.error ⟨ErrKind.parse, "Field " ++ f.name ++ " is required"⟩
  else Except.ok ()

/-- fields.py lines 112-132, Field.deserialize: validate missingness, return
the (possibly invoked) default for missing/empty/None input, otherwise run
the subclass coercion and then the validator chain, whose result is
discarded (Field._validate returns nothing), and return the coerced
output. -/
def fieldDeserialize (f : PyField) (value : PyVal) : Except Err PyVal :=
  match validateMissing f value with
  | Except.error e => Except.error e
  | Except.ok _ =>
    if isMissingEmptyNone value then Except.ok f.load_default.invoke
    else
      match f.impl value with
      | Except.error e => Except.error e
      | Except.ok output =>
        match andCall f.validators output f.name with
        | Except.error e => Except.error e
        | Except.ok _ => Except.ok output

/-- A schema type as the registry sees it: the module it is defined in, its
class name, and an identity distinguishing distinct types. -/
structure SchemaTy where
  module : String
  clsname : String
  id : Nat
deriving DecidableEq

/-- class_registry.py line 15: the process-wide table from class names and
full module paths to lists of registered classes, modelled as a partial
map. -/
def Registry := String → Option (List SchemaTy)

/-- The registry at process start: empty. -/
def emptyReg : Registry := fun _ => Option.none

/-- Python dict assignment on the registry table. -/
def setEntry (reg : Registry) (k : String) (v : List SchemaTy) : Registry :=
  fun q => if q = k then Option.some v else reg q

/-- class_registry.py lines 44-49: the classname half of register. If the
classname is present and no registered entry comes from the same module,
append; if absent, create a singleton; otherwise leave the entry alone. -/
def registerName (reg : Registry) (classname : String) (cls : SchemaTy) :
    Registry :=
  match reg classname with
  | Option.some l =>
    if !(l.any fun c => c.module == cls.module) then
      setEntry reg classname (l ++ [cls])
    else reg
  | Option.none => setEntry reg classname [cls]

/-- class_registry.py lines 52-56: the fullpath half of register. When the
full path is absent, setdefault to the empty list and append; when present,
replace the entry. Both branches leave a singleton list. -/
def registerFullpath (reg : Registry) (fullpath : String) (cls : SchemaTy) :
    Registry :=
  match reg fullpath with
  | Option.none => setEntry reg fullpath [cls]
  | Option.some _ => setEntry reg fullpath [cls]

/-- class_registry.py lines 18-57, register: update the classname entry,
then the module-qualified fullpath entry. -/
def register (reg : Registry) (classname : String) (cls : SchemaTy) :
    Registry :=
  registerFullpath (registerName reg classname cls)
    (cls.module ++ "." ++ classname) cls

/-- The two failure paths of get_class, distinguished in the code by the
printed diagnostic before the APIException is raised: the NotFoundError and
AmbiguousNameError of the spec taxonomy. -/
inductive RegErr where
  | notFound
  | ambiguous
deriving DecidableEq

/-- class_registry.py lines 60-74, get_class: a missing key is the not-found
failure, a list with more than one entry is the ambiguity failure, otherwise
the single head entry is returned. register never leaves an empty list, so
the empty-list branch (an IndexError in the code) is unreachable; it is
mapped to the not-found failure here and no theorem relies on it. -/
def get_class (reg : Registry) (classname : String) : Except RegErr SchemaTy :=
  match reg classname with
  | Option.none => Except.error RegErr.notFound
  | Option.some classes =>
    if classes.length > 1 then Except.error RegErr.ambiguous
    else
      match classes with
      | c :: _ => Except.ok c
      | [] => Except.error RegErr.notFound

/-- Whether a registry key is a module-qualified path. -/
def dotted (s : String) : Bool := s.data.contains '.'

/-- The registry invariant maintained by metaclass-driven registration
(whose classnames are identifiers, hence dot-free): every module-qualified
key maps to exactly one class. -/
def RegInv (reg : Registry) : Prop :=
  ∀ k l, dotted k = true → reg k = Option.some l → l.length = 1

section FieldCollection

variable {α : Type}

/-- The key column of an association list of declared fields. -/
def keysOf (m : List (String × α)) : List String := m.map Prod.fst

/-- Python dict assignment d[k] = v on an association list that represents
an insertion-ordered dict: a present key keeps its position and gets the new
value, an absent key is appended at the end. -/
def dictInsert (m : List (String × α)) (kv : String × α) :
    List (String × α) :=
  if kv.1 ∈ keysOf m then
    m.map (fun p => if p.1 = kv.1 then kv else p)
  else m ++ [kv]

/-- Python dict construction from a list of pairs, as performed by
schema.py line 80: klass._declared_fields = dict(inherited_fields +
cls_fields). -/
def dictOfList (l : List (String × α)) : List (String × α) :=
  l.foldl dictInsert []

/-- The keys of a list in order of first occurrence, duplicates dropped. -/
def firstOccAux (seen : List String) : List String → List String
  | [] => []
  | k :: ks =>
    if k ∈ seen then firstOccAux seen ks
    else k :: firstOccAux (seen ++ [k]) ks

/-- Keys in first-declaration order. -/
def firstOccKeys (l : List String) : List String := firstOccAux [] l

/-- schema.py lines 39-56, _get_fields_by_mro: the concatenation of the
per-ancestor declared field lists, ancestors enumerated from the most
distant to the nearest (mro reversed, the class itself excluded), followed
by the newly declared fields of the class itself. mroFields lists the
ancestors nearest-first, as Python mro does. -/
def mroConcat (mroFields : List (List (String × α)))
    (clsFields : List (String × α)) : List (String × α) :=
  (mroFields.reverse).foldl (fun a b => a ++ b) [] ++ clsFields

/-- schema.py lines 68-82, SchemaMeta.__new__: the declared-field table of a
schema type is the dict built from the inherited fields followed by the own
fields. -/
def declaredFields (mroFields : List (List (String × α)))
    (clsFields : List (String × α)) : List (String × α) :=
  dictOfList (mroConcat mroFields clsFields)

end FieldCollection

/-- The deserialize operation of a bound field as the schema walk calls it.
The attr and data arguments of deserialize are forwarded to _deserialize but
no field kind of the repository inspects them, so the value argument alone
is kept. -/
def FieldFun := PyVal → Except Err PyVal

/-- Python dict.get(field_name, missing) on the input mapping. -/
def getOr (data : List (String × PyVal)) (k : String) : PyVal :=
  (List.lookup k data).getD PyVal.missing

/-- Python identity test with the missing sentinel (schema.py line 209,
value is not missing). -/
def isMissingSentinel : PyVal → Bool
  | PyVal.missing => true
  | _ => false

/-- utils.py set_value on the output dict. Declared field names come from
class attribute names, which are Python identifiers and cannot contain a
dot, so only the plain-assignment branch of set_value is exercised by the
schema walk; plain dict assignment is dictInsert. -/
def setValue (d : List (String × PyVal)) (k : String) (v : PyVal) :
    List (String × PyVal) :=
  dictInsert d (k, v)

/-- schema.py lines 197-211, the single-mapping branch of
Schema._deserialize: walk load_fields in declaration order, fetch each raw
value with dict.get defaulting to the missing sentinel, call the field's
deserialize - any raised error propagates immediately, aborting the walk -
and store non-missing results with set_value. -/
def schemaWalk (flds : List (String × FieldFun))
    (data : List (String × PyVal)) (acc : List (String × PyVal)) :
    Except Err (List (String × PyVal)) :=
  match flds with
  | [] => Except.ok acc
  | (n, f) :: rest =>
    match f (getOr data n) with
    | Except.error e => Except.error e
    | Except.ok v =>
      schemaWalk rest data
        (if isMissingSentinel v then acc else setValue acc n v)

/-- The walk starts from the empty output dict (ret_d = dict()). -/
def schemaDeserialize (flds : List (String × FieldFun))
    (data : List (String × PyVal)) : Except Err (List (String × PyVal)) :=
  schemaWalk flds data []

/-- Python str.upper, character-wise upper casing. -/
def pyUpper (s : String) : String := String.mk (s.data.map Char.toUpper)

/-- fields.py lines 262-276, String._deserialize: non-string input fails
with a ValidationError naming the field; string input is returned, upper
cased when the field asks for it. Byte strings and their UnicodeDecodeError
path are not in the value domain modelled here. -/
def stringImpl (name : String) (upper_case : Bool) (v : PyVal) :
    Except Err PyVal :=
  match v with
  | PyVal.str s => Except.ok (PyVal.str (if upper_case then pyUpper s else s))
  | _ => Except.error ⟨ErrKind.validation,
      "Except field " ++ name ++ " is a string"⟩

/-- fields.py lines 241-249, the element loop of List._deserialize: each
element is deserialized by the inner field inside a try that catches only
ValidationError and re-raises it with the 1-based element position appended
to the field path, keeping the inner detail; any other exception kind
propagates unchanged, and no element after a failing one is visited. -/
def listElems (name : String) (inner : PyVal → Except Err PyVal) :
    Nat → List PyVal → Except Err (List PyVal)
  | _, [] => Except.ok []
  | idx, e :: rest =>
    match inner e with
    | Except.ok r =>
      match listElems name inner (idx + 1) rest with
      | Except.ok rs => Except.ok (r :: rs)
      | Except.error err => Except.error err
    | Except.error err =>
      if err.kind = ErrKind.validation then
        Except.error ⟨ErrKind.validation,
          "Field " ++ name ++ "[" ++ toString (idx + 1) ++ "]: " ++
            err.detail⟩
      else Except.error err

/-- fields.py lines 235-249, List._deserialize: the input must be a
collection (an iterable that is neither textual nor a mapping - among the
embedded values only a list qualifies), otherwise a ValidationError; then
the element loop runs from index 0. -/
def List_deserialize (name : String) (inner : PyVal → Except Err PyVal)
    (value : PyVal) : Except Err (List PyVal) :=
  match value with
  | PyVal.list xs => listElems name inner 0 xs
  | _ => Except.error ⟨ErrKind.validation,
      "Field " ++ name ++ " must be iterable"⟩

/-- Scalar inputs for the Boolean field. Containers are unhashable in
Python and would crash the set-membership test with an uncaught TypeError,
so they are outside the domain modelled here. -/
inductive Scalar where
  | none
  | str (s : String)
  | int (n : Int)
  | bool (b : Bool)
deriving DecidableEq

/-- The string members of Boolean.truthy (fields.py line 349). -/
def Boolean_truthy_strings : List String := ["T", "TRUE", "Y", "YES", "1"]

/-- The string members of Boolean.falsy (fields.py line 350). -/
def Boolean_falsy_strings : List String := ["F", "FALSE", "N", "NO", "0"]

/-- fields.py lines 352-365, Boolean._deserialize: None is returned as is;
a string is upper cased and matched against the sets; Python set membership
uses cross-type numeric equality, so an int matches the numeric members
1 / True of truthy exactly when it is 1 and the members 0 / 0.0 / False of
falsy exactly when it is 0, and a bool always matches its set; anything
else raises a ValidationError. -/
def Boolean_deserialize (name : String) : Scalar → Except Err PyVal
  | Scalar.none => Except.ok PyVal.none
  | Scalar.str s =>
    if pyUpper s ∈ Boolean_truthy_strings then Except.ok (PyVal.bool true)
    else if pyUpper s ∈ Boolean_falsy_strings then
      Except.ok (PyVal.bool false)
    else Except.error ⟨ErrKind.validation,
      "Field " ++ name ++ " must be a boolean value"⟩
  | Scalar.int n =>
    if n = 1 then Except.ok (PyVal.bool true)
    else if n = 0 then Except.ok (PyVal.bool false)
    else Except.error ⟨ErrKind.validation,
      "Field " ++ name ++ " must be a boolean value"⟩
  | Scalar.bool b => Except.ok (PyVal.bool b)

/-- The parent chain of a bound field: an owner is either a schema instance
(identified by a number) or an already-bound field with its own name,
parent and root state. -/
inductive Owner where
  | ofSchema (sid : Nat)
  | ofField (name : Option String) (parent : Option Owner)
      (root : Option Owner)

/-- The binding state of one field: base.py lines 7-9 initialize parent,
name and root to None at class level. -/
structure FieldBind where
  name : Option String
  parent : Option Owner
  root : Option Owner

/-- A field before any _bind_to_schema call. -/
def unboundField : FieldBind := ⟨Option.none, Option.none, Option.none⟩

/-- Python self.name or field_name: None and the empty string are falsy,
any other string is kept. -/
def pyOrName (cur : Option String) (new : String) : Option String :=
  match cur with
  | Option.some s => if s = "" then Option.some new else Option.some s
  | Option.none => Option.some new

/-- fields.py lines 143-146: self.parent.root if isinstance(self.parent,
FieldABC) else self.parent. -/
def parentRootExpr (p : Owner) : Option Owner :=
  match p with
  | Owner.ofField _ _ r => r
  | Owner.ofSchema sid => Option.some (Owner.ofSchema sid)

/-- fields.py lines 134-146, Field._bind_to_schema: parent, name and root
are each assigned with Python or, keeping any already-truthy value; field
and schema objects are always truthy, so parent and root are keep-if-set,
while name is keep-if-set-and-non-empty. -/
def bindToSchema (f : FieldBind) (field_name : String) (schema : Owner) :
    FieldBind :=
  let parent : Owner :=
    match f.parent with
    | Option.some p => p
    | Option.none => schema
  let name : Option String := pyOrName f.name field_name
  let root : Option Owner :=
    match f.root with
    | Option.some r => Option.some r
    | Option.none => parentRootExpr parent
  ⟨name, Option.some parent, root⟩

/-- The first non-field ancestor reached by following parent links. -/
def ancestorRoot : Owner → Option Owner
  | Owner.ofSchema sid => Option.some (Owner.ofSchema sid)
  | Owner.ofField _ (Option.some q) _ => ancestorRoot q
  | Owner.ofField _ Option.none _ => Option.none

/-- An owner produced by the binding discipline of the repository (schemas
bind their fields, a list field binds its inner field after binding itself):
every field owner has a parent and stores exactly the root of its parent
chain. -/
def wellRooted : Owner → Prop
  | Owner.ofSchema _ => True
  | Owner.ofField _ (Option.some q) r => wellRooted q ∧ r = ancestorRoot q
  | Owner.ofField _ Option.none _ => False

/-- A schema instance as Nested resolution produces it: the identity of the
class it was built from (or of the copied instance) and its many flag. -/
structure SchemaInst where
  cid : Nat
  many : Bool
deriving DecidableEq

/-- Constructing an instance of a schema class with a many flag
(schema_class(many=self.many), fields.py line 202). -/
def mkSchemaInst (c : SchemaTy) (many : Bool) : SchemaInst := ⟨c.id, many⟩

/-- The nested argument of a Nested field (fields.py line 175): a schema
instance, a schema class, a registry name, or a zero-argument factory. -/
inductive NestedRef where
  | inst (s : SchemaInst)
  | cls (c : SchemaTy)
  | byName (n : String)
  | factory (f : Unit → SchemaInst)

/-- The state of a Nested field: its nested reference, its many flag, and
the cached schema slot. -/
structure NestedState where
  nested : NestedRef
  many : Bool
  _schema : Option SchemaInst

/-- fields.py lines 175-179, Nested.__init__: store the reference and set
the cache slot to None; no resolution of any kind happens here, which is
what makes forward references by name work. -/
def nestedInit (ref : NestedRef) (many : Bool) : NestedState :=
  ⟨ref, many, Option.none⟩

/-- copy.copy of a schema instance followed by _init_fields: the same
logical schema value. -/
def copySchema (s : SchemaInst) : SchemaInst := s

/-- fields.py lines 181-203, the Nested.schema property: a cached instance
is returned at once (schema instances are always truthy in Python, so the
if-not-cached test is an is-None test); otherwise a callable non-type
reference is invoked, an instance is copied, a class is constructed with
the many flag, and a name is resolved through the registry, and the result
is stored in the cache. The boolean of the returned triple reports whether
the resolution branch ran. -/
def schemaProp (st : NestedState) (reg : Registry) :
    Except RegErr (SchemaInst × NestedState × Bool) :=
  match st._schema with
  | Option.some s => Except.ok (s, st, false)
  | Option.none =>
    match st.nested with
    | NestedRef.factory f =>
      let s2 := copySchema (f ())
      Except.ok (s2, { st with _schema := Option.some s2 }, true)
    | NestedRef.inst s =>
      let s2 := copySchema s
      Except.ok (s2, { st with _schema := Option.some s2 }, true)
    | NestedRef.cls c =>
      let s2 := mkSchemaInst c st.many
      Except.ok (s2, { st with _schema := Option.some s2 }, true)
    | NestedRef.byName n =>
      match get_class reg n with
      | Except.error e => Except.error e
      | Except.ok c =>
        let s2 := mkSchemaInst c st.many
        Except.ok (s2, { st with _schema := Option.some s2 }, true)

/-- A field whose single validator is a plain callable returning a
different value than its input. -/
def c7Field : PyField :=
  ⟨"n", false, DefaultVal.val PyVal.missing,
    [⟨false, fun _ _ => Except.ok (PyVal.int 6)⟩], fun v => Except.ok v⟩

theorem append_dot_ne (m n : String) : m ++ "." ++ n ≠ n := by
  intro h
  have h2 := congrArg String.length h
  rw [String.length_append, String.length_append] at h2
  have h3 : ("." : String).length = 1 := rfl
  omega

theorem registerFullpath_self (reg : Registry) (fp : String) (cls : SchemaTy) :
    (registerFullpath reg fp cls) fp = Option.some [cls] := by
  unfold registerFullpath
  cases h : reg fp <;> simp [setEntry]

theorem registerFullpath_other (reg : Registry) (fp : String) (cls : SchemaTy)
    (k : String) (hk : k ≠ fp) :
    (registerFullpath reg fp cls) k = reg k := by
  unfold registerFullpath
  cases h : reg fp <;> simp [setEntry, hk]

theorem registerName_other (reg : Registry) (n : String) (cls : SchemaTy)
    (k : String) (hk : k ≠ n) :
    (registerName reg n cls) k = reg k := by
  unfold registerName
  cases h : reg n with
  | none => simp [setEntry, hk]
  | some l =>
    cases hb : l.any fun c => c.module == cls.module <;>
      simp [hb, setEntry, hk]

theorem registerName_new (reg : Registry) (n : String) (cls : SchemaTy)
    (h : reg n = Option.none) :
    (registerName reg n cls) n = Option.some [cls] := by
  unfold registerName
  rw [h]
  simp [setEntry]

theorem registerName_append (reg : Registry) (n : String) (cls : SchemaTy)
    (l : List SchemaTy) (h : reg n = Option.some l)
    (ha : (l.any fun c => c.module == cls.module) = false) :
    (registerName reg n cls) n = Option.some (l ++ [cls]) := by
  unfold registerName
  rw [h]
  simp [ha, setEntry]

theorem registerName_skip (reg : Registry) (n : String) (cls : SchemaTy)
    (l : List SchemaTy) (h : reg n = Option.some l)
    (ha : (l.any fun c => c.module == cls.module) = true) :
    (registerName reg n cls) n = Option.some l := by
  unfold registerName
  rw [h]
  simp only [ha, Bool.not_true, Bool.false_eq_true, if_false]
  exact h

theorem get_class_singleton (reg : Registry) (k : String) (c : SchemaTy)
    (h : reg k = Option.some [c]) : get_class reg k = Except.ok c := by
  unfold get_class
  rw [h]
  simp

/-- C4: resolving an absent name is the not-found failure; registering a
class under a simple name already carrying entries from other modules and
resolving that simple name is the ambiguity failure; resolving the
module-qualified path right after registration always succeeds with the
registered class; dot-free registration preserves the invariant that
module-qualified keys are unambiguous, under which every present
module-qualified key resolves successfully. -/
theorem C4_registry_resolution (reg : Registry) (n : String) (cls : SchemaTy)
    (l : List SchemaTy) :
    (reg n = Option.none → get_class reg n = Except.error RegErr.notFound)
    ∧ (reg n = Option.some l → l ≠ [] →
        (∀ c ∈ l, c.module ≠ cls.module) →
        get_class (register reg n cls) n = Except.error RegErr.ambiguous)
    ∧ get_class (register reg n cls) (cls.module ++ "." ++ n) = Except.ok cls
    ∧ (RegInv reg → dotted n = false → RegInv (register reg n cls))
    ∧ (RegInv reg → ∀ k l2, dotted k = true → reg k = Option.some l2 →
        ∃ c, l2 = [c] ∧ get_class reg k = Except.ok c) := by
  refine ⟨?_, ?_, ?_, ?_, ?_⟩
  · intro h
    unfold get_class
    rw [h]
  · intro h hne hmod
    have ha : (l.any fun c => c.module == cls.module) = false := by
      simp only [List.any_eq_false]
      intro c hc
      simpa using hmod c hc
    have h1 : (register reg n cls) n = Option.some (l ++ [cls]) := by
      unfold register
      rw [registerFullpath_other _ _ _ _ (Ne.symm (append_dot_ne cls.module n))]
      exact registerName_append reg n cls l h ha
    unfold get_class
    rw [h1]
    have hlen : (l ++ [cls]).length > 1 := by
      have := List.length_pos.mpr hne
      simp
      omega
    dsimp only
    rw [if_pos hlen]
  · have h1 : (register reg n cls) (cls.module ++ "." ++ n)
        = Option.some [cls] := registerFullpath_self _ _ _
    exact get_class_singleton _ _ _ h1
  · intro hinv hn k l2 hd hl
    by_cases hf : k = cls.module ++ "." ++ n
    · subst hf
      rw [register, registerFullpath_self] at hl
      cases hl
      rfl
    · have hkn : k ≠ n := by
        intro e
        subst e
        rw [hd] at hn
        exact Bool.noConfusion hn
      rw [register, registerFullpath_other _ _ _ _ hf,
        registerName_other _ _ _ _ hkn] at hl
      exact hinv k l2 hd hl
  · intro hinv k l2 hd hl
    have hlen : l2.length = 1 := hinv k l2 hd hl
    obtain ⟨c, rfl⟩ := List.length_eq_one.mp hlen
    exact ⟨c, rfl, get_class_singleton _ _ _ hl⟩

/-- Witness for C4: a lookup on the empty registry is not found; registering
the same simple name from two modules makes the simple name ambiguous while
the module-qualified path still resolves; the invariant holds after a
dot-free registration and the registered module-qualified key resolves. -/
theorem C4_witness :
    get_class emptyReg "X" = Except.error RegErr.notFound
    ∧ get_class
        (register (register emptyReg "A" ⟨"m1", "A", 1⟩) "A" ⟨"m2", "A", 2⟩)
        "A" = Except.error RegErr.ambiguous
    ∧ get_class (register emptyReg "A" ⟨"m1", "A", 1⟩)
        ("m1" ++ "." ++ "A") = Except.ok ⟨"m1", "A", 1⟩
    ∧ RegInv (register emptyReg "A" ⟨"m1", "A", 1⟩)
    ∧ ∃ c, [(⟨"m1", "A", 1⟩ : SchemaTy)] = [c]
        ∧ get_class (register emptyReg "A" ⟨"m1", "A", 1⟩) "m1.A"
            = Except.ok c := by
  have hinv0 : RegInv emptyReg := by
    intro k l hd hl
    exact Option.noConfusion hl
  have hinv1 : RegInv (register emptyReg "A" ⟨"m1", "A", 1⟩) :=
    (C4_registry_resolution emptyReg "A" ⟨"m1", "A", 1⟩ []).2.2.2.1 hinv0
      (by decide)
  refine ⟨(C4_registry_resolution emptyReg "X" ⟨"m1", "A", 1⟩ []).1 rfl,
    ?_, (C4_registry_resolution emptyReg "A" ⟨"m1", "A", 1⟩ []).2.2.1,
    hinv1, ?_⟩
  · refine (C4_registry_resolution (register emptyReg "A" ⟨"m1", "A", 1⟩)
      "A" ⟨"m2", "A", 2⟩ [⟨"m1", "A", 1⟩]).2.1 ?_ (by decide) (by decide)
    rfl
  · exact (C4_registry_resolution (register emptyReg "A" ⟨"m1", "A", 1⟩)
      "B" ⟨"m2", "A", 2⟩ []).2.2.2.2 hinv1 "m1.A" [⟨"m1", "A", 1⟩]
      (by decide) rfl

/-- C10: registering two distinct classes with the same simple name from the
same module keeps the first class under the simple name but replaces the
module-qualified entry with the second, so the two lookups disagree. -/
theorem C10_same_module_redefinition (reg : Registry) (n : String)
    (c1 c2 : SchemaTy) (hmod : c1.module = c2.module) (hne : c1 ≠ c2)
    (h0 : reg n = Option.none) :
    get_class (register (register reg n c1) n c2) n = Except.ok c1
    ∧ get_class (register (register reg n c1) n c2)
        (c2.module ++ "." ++ n) = Except.ok c2
    ∧ c1 ≠ c2 := by
  have h1 : (register reg n c1) n = Option.some [c1] := by
    rw [register, registerFullpath_other _ _ _ _
      (Ne.symm (append_dot_ne c1.module n))]
    exact registerName_new reg n c1 h0
  have ha : ([c1].any fun c => c.module == c2.module) = true := by
    simp [hmod]
  have h2 : (register (register reg n c1) n c2) n = Option.some [c1] := by
    rw [register, registerFullpath_other _ _ _ _
      (Ne.symm (append_dot_ne c2.module n))]
    exact registerName_skip _ n c2 [c1] h1 ha
  refine ⟨get_class_singleton _ _ _ h2, ?_, hne⟩
  exact get_class_singleton _ _ _ (registerFullpath_self _ _ _)

/-- Witness for C10: two distinct classes named A in module m; the simple
name resolves to the first, the module-qualified path to the second. -/
theorem C10_witness :
    get_class (register (register emptyReg "A" ⟨"m", "A", 1⟩) "A"
        ⟨"m", "A", 2⟩) "A" = Except.ok ⟨"m", "A", 1⟩
    ∧ get_class (register (register emptyReg "A" ⟨"m", "A", 1⟩) "A"
        ⟨"m", "A", 2⟩) ("m" ++ "." ++ "A") = Except.ok ⟨"m", "A", 2⟩
    ∧ (⟨"m", "A", 1⟩ : SchemaTy) ≠ ⟨"m", "A", 2⟩ :=
  C10_same_module_redefinition emptyReg "A" ⟨"m", "A", 1⟩ ⟨"m", "A", 2⟩
    rfl (by decide) rfl

section FieldCollectionProofs

variable {α : Type}

theorem keysOf_append (m m2 : List (String × α)) :
    keysOf (m ++ m2) = keysOf m ++ keysOf m2 := by
  simp [keysOf]

theorem keysOf_cons (p : String × α) (m : List (String × α)) :
    keysOf (p :: m) = p.1 :: keysOf m := rfl

theorem keysOf_dictInsert (m : List (String × α)) (kv : String × α) :
    keysOf (dictInsert m kv) =
      if kv.1 ∈ keysOf m then keysOf m else keysOf m ++ [kv.1] := by
  unfold dictInsert
  split
  · simp only [keysOf, List.map_map, if_pos]
    congr 1
    funext p
    by_cases h : p.1 = kv.1 <;> simp [h]
  · simp [keysOf]

theorem keys_foldl_dictInsert (l : List (String × α)) :
    ∀ acc : List (String × α),
      keysOf (l.foldl dictInsert acc) =
        keysOf acc ++ firstOccAux (keysOf acc) (keysOf l) := by
  induction l with
  | nil => intro acc; simp [keysOf, firstOccAux]
  | cons kv rest ih =>
    intro acc
    rw [List.foldl_cons, ih (dictInsert acc kv)]
    by_cases hc : kv.1 ∈ keysOf acc
    · rw [keysOf_dictInsert, if_pos hc]
      show _ = keysOf acc ++ firstOccAux (keysOf acc) (kv.1 :: keysOf rest)
      rw [firstOccAux, if_pos hc]
    · rw [keysOf_dictInsert, if_neg hc]
      show _ = keysOf acc ++ firstOccAux (keysOf acc) (kv.1 :: keysOf rest)
      rw [firstOccAux, if_neg hc]
      simp

theorem lookup_append (xs ys : List (String × α)) (k : String) :
    List.lookup k (xs ++ ys) = (List.lookup k xs).or (List.lookup k ys) := by
  induction xs with
  | nil => simp [List.lookup]
  | cons p rest ih =>
    by_cases h : k = p.1
    · simp [List.lookup, h]
    · simp only [List.cons_append, List.lookup]
      rw [show (k == p.1) = false from beq_eq_false_iff_ne.mpr h]
      exact ih

theorem lookup_none_of_not_mem (m : List (String × α)) (k : String)
    (h : k ∉ keysOf m) : List.lookup k m = Option.none := by
  induction m with
  | nil => rfl
  | cons p rest ih =>
    simp only [keysOf, List.map_cons, List.mem_cons] at h
    push_neg at h
    simp only [List.lookup]
    rw [show (k == p.1) = false from beq_eq_false_iff_ne.mpr h.1]
    exact ih (by simpa [keysOf] using h.2)

theorem lookup_map_replace (m : List (String × α)) (kv : String × α)
    (k : String) :
    List.lookup k (m.map fun p => if p.1 = kv.1 then kv else p) =
      if k = kv.1 then
        (if k ∈ keysOf m then Option.some kv.2 else Option.none)
      else List.lookup k m := by
  induction m with
  | nil => by_cases h : k = kv.1 <;> simp [List.lookup, h, keysOf]
  | cons p rest ih =>
    simp only [List.map_cons]
    by_cases hp : p.1 = kv.1
    · rw [if_pos hp]
      by_cases hk : k = kv.1
      · simp only [List.lookup, beq_iff_eq.mpr hk]
        rw [if_pos hk]
        have hmem : k ∈ keysOf (p :: rest) := by
          rw [keysOf_cons]
          exact List.mem_cons.mpr (Or.inl (hk.trans hp.symm))
        rw [if_pos hmem]
      · have hkp : k ≠ p.1 := fun h => hk (h.trans hp)
        simp only [List.lookup, beq_eq_false_iff_ne.mpr hk]
        rw [ih, if_neg hk, if_neg hk]
        rw [show (k == p.1) = false from beq_eq_false_iff_ne.mpr hkp]
    · rw [if_neg hp]
      by_cases hk : k = p.1
      · have hkk : k ≠ kv.1 := fun h => hp (hk.symm.trans h)
        simp only [List.lookup, beq_iff_eq.mpr hk]
        rw [if_neg hkk]
      · have hb := beq_eq_false_iff_ne.mpr hk
        simp only [List.lookup, hb]
        rw [ih]
        by_cases hkk : k = kv.1
        · rw [if_pos hkk, if_pos hkk]
          have hmm : (k ∈ keysOf (p :: rest)) ↔ (k ∈ keysOf rest) := by
            rw [keysOf_cons]
            simp [hk]
          by_cases hm : k ∈ keysOf rest
          · rw [if_pos hm, if_pos (hmm.mpr hm)]
          · rw [if_neg hm, if_neg (fun h => hm (hmm.mp h))]
        · rw [if_neg hkk, if_neg hkk]

theorem lookup_dictInsert (m : List (String × α)) (kv : String × α)
    (k : String) :
    List.lookup k (dictInsert m kv) =
      if k = kv.1 then Option.some kv.2 else List.lookup k m := by
  unfold dictInsert
  by_cases hc : kv.1 ∈ keysOf m
  · rw [if_pos hc, lookup_map_replace]
    by_cases hk : k = kv.1
    · rw [if_pos hk, if_pos hk, if_pos (hk ▸ hc)]
    · rw [if_neg hk, if_neg hk]
  · rw [if_neg hc, lookup_append]
    by_cases hk : k = kv.1
    · rw [if_pos hk, lookup_none_of_not_mem m k (hk ▸ hc)]
      simp [List.lookup, beq_iff_eq.mpr hk, Option.or]
    · rw [if_neg hk]
      have : List.lookup k [kv] = Option.none := by
        simp [List.lookup, beq_eq_false_iff_ne.mpr hk]
      rw [this]
      cases List.lookup k m <;> simp [Option.or]

theorem lookup_foldl_dictInsert (l : List (String × α)) :
    ∀ (acc : List (String × α)) (k : String),
      List.lookup k (l.foldl dictInsert acc) =
        (List.lookup k l.reverse).or (List.lookup k acc) := by
  induction l with
  | nil => intro acc k; simp [List.lookup]
  | cons kv rest ih =>
    intro acc k
    rw [List.foldl_cons, ih (dictInsert acc kv) k, lookup_dictInsert]
    rw [List.reverse_cons, lookup_append]
    rw [Option.or_assoc]
    congr 1
    by_cases hk : k = kv.1
    · simp [List.lookup, hk, Option.or]
    · simp [List.lookup, beq_eq_false_iff_ne.mpr hk, hk, Option.or]

theorem firstOccAux_nodup (l : List String) :
    ∀ seen : List String, (firstOccAux seen l).Nodup
      ∧ ∀ k ∈ firstOccAux seen l, k ∉ seen := by
  induction l with
  | nil => intro seen; simp [firstOccAux]
  | cons k ks ih =>
    intro seen
    by_cases hc : k ∈ seen
    · rw [firstOccAux, if_pos hc]
      exact ih seen
    · rw [firstOccAux, if_neg hc]
      obtain ⟨hnd, hout⟩ := ih (seen ++ [k])
      refine ⟨List.nodup_cons.mpr ⟨fun hmem => ?_, hnd⟩, ?_⟩
      · have := hout k hmem
        simp at this
      · intro x hx
        rcases List.mem_cons.mp hx with rfl | hx2
        · exact hc
        · intro hxs
          exact hout x hx2 (by simp [hxs])

theorem foldl_dictInsert_disjoint (m : List (String × α)) :
    ∀ acc : List (String × α), (keysOf m).Nodup →
      (∀ k ∈ keysOf m, k ∉ keysOf acc) →
      m.foldl dictInsert acc = acc ++ m := by
  induction m with
  | nil => intro acc _ _; simp
  | cons kv rest ih =>
    intro acc hnd hdisj
    rw [keysOf_cons] at hnd hdisj
    obtain ⟨hhead, hnd2⟩ := List.nodup_cons.mp hnd
    have hk : kv.1 ∉ keysOf acc := hdisj kv.1 (List.mem_cons_self _ _)
    rw [List.foldl_cons]
    rw [show dictInsert acc kv = acc ++ [kv] from by
      unfold dictInsert; rw [if_neg hk]]
    rw [ih (acc ++ [kv]) hnd2 ?_]
    · simp
    · intro k hkr
      rw [keysOf_append]
      intro hmem
      rcases List.mem_append.mp hmem with h1 | h2
      · exact hdisj k (List.mem_cons_of_mem _ hkr) h1
      · have hk1 : k = kv.1 := by simpa [keysOf] using h2
        exact hhead (hk1 ▸ hkr)

theorem dictOfList_of_nodup (m : List (String × α))
    (h : (keysOf m).Nodup) : dictOfList m = m := by
  unfold dictOfList
  rw [foldl_dictInsert_disjoint m [] h (by simp [keysOf])]
  simp

/-- C3: the declared-field table of a schema type is order-preserving - its
key order is the order of first declaration along the reversed method
resolution order followed by the own declarations - while the field object
stored under each key is the most derived (last) declaration of that key;
and the construction is idempotent, so recomputing over an unchanged
hierarchy yields an identical structure. -/
theorem C3_declared_fields (mroFields : List (List (String × α)))
    (clsFields : List (String × α)) :
    keysOf (declaredFields mroFields clsFields) =
        firstOccKeys (keysOf (mroConcat mroFields clsFields))
    ∧ (∀ k, List.lookup k (declaredFields mroFields clsFields) =
        List.lookup k (mroConcat mroFields clsFields).reverse)
    ∧ dictOfList (declaredFields mroFields clsFields) =
        declaredFields mroFields clsFields := by
  refine ⟨?_, ?_, ?_⟩
  · rw [declaredFields, dictOfList,
      keys_foldl_dictInsert (mroConcat mroFields clsFields) []]
    simp [keysOf, firstOccKeys]
  · intro k
    rw [declaredFields, dictOfList,
      lookup_foldl_dictInsert (mroConcat mroFields clsFields) [] k]
    rw [show List.lookup k ([] : List (String × α)) = Option.none from rfl]
    cases List.lookup k (mroConcat mroFields clsFields).reverse <;>
      simp [Option.or]
  · apply dictOfList_of_nodup
    rw [declaredFields, dictOfList,
      keys_foldl_dictInsert (mroConcat mroFields clsFields) []]
    have := firstOccAux_nodup (keysOf (mroConcat mroFields clsFields)) []
    simpa [keysOf] using this.1

end FieldCollectionProofs

/-- C1 (amended): for a required field, deserialize of the missing sentinel,
of an empty string, or of None fails with the RequiredError (ParseError)
identifying the field name whenever the declared default is falsy - in
particular when there is no default, the sentinel itself being falsy - and
succeeds returning the (possibly produced) default whenever the declared
default is truthy. -/
theorem C1_required_missing_default (f : PyField) (v : PyVal)
    (hreq : f.required = true) (hmen : isMissingEmptyNone v = true) :
    (f.load_default.truthy = false →
      fieldDeserialize f v =
        Except.error ⟨ErrKind.parse, "Field " ++ f.name ++ " is required"⟩)
    ∧ (f.load_default.truthy = true →
      fieldDeserialize f v = Except.ok f.load_default.invoke) := by
  constructor
  · intro hdef
    unfold fieldDeserialize validateMissing
    simp [hreq, hmen, hdef]
  · intro hdef
    unfold fieldDeserialize validateMissing
    simp [hreq, hmen, hdef]

/-- Witness for C1: a required field with no default fails on the missing
sentinel, and the same call with a truthy producer default returns the
produced value. -/
theorem C1_witness :
    fieldDeserialize
        ⟨"age", true, DefaultVal.val PyVal.missing, [], fun v => Except.ok v⟩
        PyVal.missing
      = Except.error ⟨ErrKind.parse, "Field age is required"⟩
    ∧ fieldDeserialize
        ⟨"age", true, DefaultVal.producer (fun _ => PyVal.int 7), [],
          fun v => Except.ok v⟩
        PyVal.missing
      = Except.ok (PyVal.int 7) :=
  ⟨(C1_required_missing_default _ PyVal.missing rfl rfl).1 rfl,
   (C1_required_missing_default _ PyVal.missing rfl rfl).2 rfl⟩

/-- C1 counterexample: a required field declared with default 0 - a default
value - still fails with the RequiredError on missing input instead of
returning the default, because Field._validate_missing tests the default
for truthiness, not for presence. -/
theorem C1_counterexample :
    fieldDeserialize
        ⟨"age", true, DefaultVal.val (PyVal.int 0), [], fun v => Except.ok v⟩
        PyVal.missing
      = Except.error ⟨ErrKind.parse, "Field age is required"⟩
    ∧ fieldDeserialize
        ⟨"age", true, DefaultVal.val (PyVal.int 0), [], fun v => Except.ok v⟩
        PyVal.missing
      ≠ Except.ok (PyVal.int 0) := by
  refine ⟨rfl, ?_⟩
  intro h
  rw [show fieldDeserialize
        ⟨"age", true, DefaultVal.val (PyVal.int 0), [], fun v => Except.ok v⟩
        PyVal.missing
      = Except.error ⟨ErrKind.parse, "Field age is required"⟩ from rfl] at h
  exact Except.noConfusion h

theorem schemaWalk_first_error (pre : List (String × FieldFun)) (nm : String)
    (f : FieldFun) (post : List (String × FieldFun))
    (data : List (String × PyVal)) (e : Err)
    (hpre : ∀ p ∈ pre, ∃ v, p.2 (getOr data p.1) = Except.ok v)
    (hf : f (getOr data nm) = Except.error e) :
    ∀ acc, schemaWalk (pre ++ (nm, f) :: post) data acc = Except.error e := by
  induction pre with
  | nil =>
    intro acc
    show schemaWalk ((nm, f) :: post) data acc = Except.error e
    unfold schemaWalk
    rw [hf]
  | cons p rest ih =>
    intro acc
    obtain ⟨pn, pf⟩ := p
    obtain ⟨v, hv⟩ := hpre (pn, pf) (List.mem_cons_self _ _)
    have hrest : ∀ q ∈ rest, ∃ w, q.2 (getOr data q.1) = Except.ok w :=
      fun q hq => hpre q (List.mem_cons_of_mem _ hq)
    rw [List.cons_append]
    show schemaWalk ((pn, pf) :: (rest ++ (nm, f) :: post)) data acc
        = Except.error e
    unfold schemaWalk
    have hv2 : pf (getOr data pn) = Except.ok v := hv
    rw [hv2]
    exact ih hrest _

/-- C2: when the input mapping makes several fields fail, the schema walk
visits load_fields in declaration order, raises the failure of the first
failing field, and the fields declared after it are never deserialized -
the outcome does not depend on them at all. -/
theorem C2_first_field_failure (pre : List (String × FieldFun)) (nm : String)
    (f : FieldFun) (post : List (String × FieldFun))
    (data : List (String × PyVal)) (e : Err)
    (hpre : ∀ p ∈ pre, ∃ v, p.2 (getOr data p.1) = Except.ok v)
    (hf : f (getOr data nm) = Except.error e) :
    schemaDeserialize (pre ++ (nm, f) :: post) data = Except.error e :=
  schemaWalk_first_error pre nm f post data e hpre hf []

/-- Witness for C2: with a succeeding first field, a failing second field
and a third field that would fail differently, load surfaces exactly the
second field's failure. -/
theorem C2_witness :
    schemaDeserialize
      [("a", fun v => Except.ok v),
       ("b", fun _ =>
         Except.error ⟨ErrKind.validation, "Field b must be a boolean value"⟩),
       ("c", fun _ => Except.error ⟨ErrKind.api, "never reached"⟩)]
      [("a", PyVal.int 1), ("b", PyVal.str "maybe"), ("c", PyVal.int 3)]
      = Except.error ⟨ErrKind.validation, "Field b must be a boolean value"⟩ :=
  C2_first_field_failure [("a", fun v => Except.ok v)] "b"
    (fun _ =>
      Except.error ⟨ErrKind.validation, "Field b must be a boolean value"⟩)
    [("c", fun _ => Except.error ⟨ErrKind.api, "never reached"⟩)]
    [("a", PyVal.int 1), ("b", PyVal.str "maybe"), ("c", PyVal.int 3)]
    ⟨ErrKind.validation, "Field b must be a boolean value"⟩
    (fun p hp => by
      rw [List.mem_singleton] at hp
      subst hp
      exact ⟨_, rfl⟩)
    rfl

theorem listElems_first_error (name : String)
    (inner : PyVal → Except Err PyVal) (pre : List PyVal) (x : PyVal)
    (post : List PyVal) (e : Err)
    (hpre : ∀ p ∈ pre, ∃ r, inner p = Except.ok r)
    (hx : inner x = Except.error e) (hv : e.kind = ErrKind.validation) :
    ∀ k, listElems name inner k (pre ++ x :: post) =
      Except.error ⟨ErrKind.validation,
        "Field " ++ name ++ "[" ++ toString (k + pre.length + 1) ++ "]: " ++
          e.detail⟩ := by
  induction pre with
  | nil =>
    intro k
    show listElems name inner k (x :: post) = _
    unfold listElems
    rw [hx]
    dsimp only
    rw [if_pos hv]
    simp
  | cons p rest ih =>
    intro k
    obtain ⟨r, hr⟩ := hpre p (List.mem_cons_self _ _)
    have hrest : ∀ q ∈ rest, ∃ r2, inner q = Except.ok r2 :=
      fun q hq => hpre q (List.mem_cons_of_mem _ hq)
    rw [List.cons_append]
    show listElems name inner k (p :: (rest ++ x :: post)) = _
    unfold listElems
    rw [hr]
    dsimp only
    rw [ih hrest (k + 1)]
    have h2 : k + 1 + rest.length + 1 = k + (rest.length + 1) + 1 := by omega
    simp only [List.length_cons, h2]

/-- C5 (amended): when the first failing element of a list field raises a
ValidationError, deserialize fails with that error re-raised under the
field path extended with the 1-based element position, the inner detail
preserved, and no element after the failing one is deserialized; failures
of other exception kinds (ParseError, APIException) propagate without the
position annotation. -/
theorem C5_list_element_path (name : String)
    (inner : PyVal → Except Err PyVal) (pre : List PyVal) (x : PyVal)
    (post : List PyVal) (e : Err)
    (hpre : ∀ p ∈ pre, ∃ r, inner p = Except.ok r)
    (hx : inner x = Except.error e) (hv : e.kind = ErrKind.validation) :
    List_deserialize name inner (PyVal.list (pre ++ x :: post)) =
      Except.error ⟨ErrKind.validation,
        "Field " ++ name ++ "[" ++ toString (pre.length + 1) ++ "]: " ++
          e.detail⟩ := by
  show listElems name inner 0 (pre ++ x :: post) = _
  rw [listElems_first_error name inner pre x post e hpre hx hv 0]
  simp

/-- Witness for C5: deserializing the sequence ok, ok, 123 into a
list-of-string field named tags fails referencing tags[3], 1-based. -/
theorem C5_witness :
    List_deserialize "tags" (stringImpl "tags" false)
        (PyVal.list [PyVal.str "ok", PyVal.str "ok", PyVal.int 123])
      = Except.error ⟨ErrKind.validation,
          "Field tags[3]: Except field tags is a string"⟩ :=
  C5_list_element_path "tags" (stringImpl "tags" false)
    [PyVal.str "ok", PyVal.str "ok"] (PyVal.int 123) []
    ⟨ErrKind.validation, "Except field tags is a string"⟩
    (fun p hp => by
      rcases List.mem_cons.mp hp with rfl | hp2
      · exact ⟨PyVal.str "ok", rfl⟩
      · rw [List.mem_singleton] at hp2
        subst hp2
        exact ⟨PyVal.str "ok", rfl⟩)
    rfl rfl

/-- C5 counterexample: a required inner field fails on an empty-string
element with a ParseError, which the element loop does not catch (it
catches ValidationError only), so the error escapes without the element
position - the claim as stated, which promises a path-extended message for
every failing element, is false. -/
theorem C5_counterexample :
    List_deserialize "tags"
        (fieldDeserialize ⟨"tags", true, DefaultVal.val PyVal.missing, [],
          stringImpl "tags" false⟩)
        (PyVal.list [PyVal.str ""])
      = Except.error ⟨ErrKind.parse, "Field tags is required"⟩
    ∧ List_deserialize "tags"
        (fieldDeserialize ⟨"tags", true, DefaultVal.val PyVal.missing, [],
          stringImpl "tags" false⟩)
        (PyVal.list [PyVal.str ""])
      ≠ Except.error ⟨ErrKind.validation,
          "Field tags[1]: Field tags is required"⟩ := by
  refine ⟨rfl, ?_⟩
  intro h
  rw [show List_deserialize "tags"
        (fieldDeserialize ⟨"tags", true, DefaultVal.val PyVal.missing, [],
          stringImpl "tags" false⟩)
        (PyVal.list [PyVal.str ""])
      = Except.error ⟨ErrKind.parse, "Field tags is required"⟩ from rfl] at h
  simp at h

theorem andCall_returns_input (vs : List ValidatorSpec) (value : PyVal)
    (name : String) (w : PyVal)
    (h : andCall vs value name = Except.ok w) : w = value := by
  induction vs with
  | nil =>
    unfold andCall at h
    injection h with h2
    exact h2.symm
  | cons v rest ih =>
    unfold andCall at h
    split at h
    · exact Except.noConfusion h
    · split at h
      · exact Except.noConfusion h
      · exact ih h

/-- C7 (amended): for a present, coercible value, deserialize runs the
coerced candidate through the validator chain, but returns the coerced
candidate itself: And returns its input value unchanged and
Field._validate discards even that, so a value-transforming validator has
no effect on the result of deserialize. -/
theorem C7_validator_chain (f : PyField) (v out w : PyVal)
    (hmen : isMissingEmptyNone v = false)
    (himpl : f.impl v = Except.ok out)
    (hchain : andCall f.validators out f.name = Except.ok w) :
    fieldDeserialize f v = Except.ok out ∧ w = out := by
  constructor
  · simp [fieldDeserialize, validateMissing, hmen, himpl, hchain]
  · exact andCall_returns_input f.validators out f.name w hchain

/-- Witness for C7: the transforming validator runs, yet deserialize
returns the coerced candidate. -/
theorem C7_witness :
    fieldDeserialize c7Field (PyVal.int 5) = Except.ok (PyVal.int 5)
    ∧ PyVal.int 5 = PyVal.int 5 :=
  C7_validator_chain c7Field (PyVal.int 5) (PyVal.int 5) (PyVal.int 5)
    rfl rfl rfl

/-- C7 counterexample: with a validator transforming 5 into 6, deserialize
returns 5, not the transformed 6 the claim promises. -/
theorem C7_counterexample :
    fieldDeserialize c7Field (PyVal.int 5) = Except.ok (PyVal.int 5)
    ∧ fieldDeserialize c7Field (PyVal.int 5) ≠ Except.ok (PyVal.int 6) := by
  refine ⟨rfl, ?_⟩
  intro h
  rw [show fieldDeserialize c7Field (PyVal.int 5) = Except.ok (PyVal.int 5)
    from rfl] at h
  injection h with h2
  injection h2 with h3
  exact absurd h3 (by decide)

/-- C8 (amended): Boolean deserialization case-normalizes textual input and
maps the truthy set to true and the falsy set to false, in string form
(after upper casing) and numeric form (1 and 0, and bool inputs; Python
numeric equality makes True match the truthy set and False the falsy set);
every other non-None value fails with the type-mismatch ValidationError,
but a None input is returned as None instead of failing. -/
theorem C8_boolean_sets (name : String) :
    (∀ s : String, pyUpper s ∈ Boolean_truthy_strings →
      Boolean_deserialize name (Scalar.str s) = Except.ok (PyVal.bool true))
    ∧ (∀ s : String, pyUpper s ∉ Boolean_truthy_strings →
        pyUpper s ∈ Boolean_falsy_strings →
        Boolean_deserialize name (Scalar.str s) =
          Except.ok (PyVal.bool false))
    ∧ Boolean_deserialize name (Scalar.int 1) = Except.ok (PyVal.bool true)
    ∧ Boolean_deserialize name (Scalar.int 0) = Except.ok (PyVal.bool false)
    ∧ (∀ b : Bool,
        Boolean_deserialize name (Scalar.bool b) = Except.ok (PyVal.bool b))
    ∧ Boolean_deserialize name Scalar.none = Except.ok PyVal.none
    ∧ (∀ s : String, pyUpper s ∉ Boolean_truthy_strings →
        pyUpper s ∉ Boolean_falsy_strings →
        Boolean_deserialize name (Scalar.str s) =
          Except.error ⟨ErrKind.validation,
            "Field " ++ name ++ " must be a boolean value"⟩)
    ∧ (∀ n : Int, n ≠ 1 → n ≠ 0 →
        Boolean_deserialize name (Scalar.int n) =
          Except.error ⟨ErrKind.validation,
            "Field " ++ name ++ " must be a boolean value"⟩) := by
  refine ⟨?_, ?_, ?_, ?_, ?_, rfl, ?_, ?_⟩
  · intro s hs
    simp [Boolean_deserialize, hs]
  · intro s hs1 hs2
    simp [Boolean_deserialize, hs1, hs2]
  · simp [Boolean_deserialize]
  · simp [Boolean_deserialize]
  · intro b
    simp [Boolean_deserialize]
  · intro s hs1 hs2
    simp [Boolean_deserialize, hs1, hs2]
  · intro n h1 h0
    simp [Boolean_deserialize, h1, h0]

/-- Witness for C8: concrete members of each branch - a lowercase truthy
string, a falsy string, both numeric forms, a bool, None, and rejected
values. -/
theorem C8_witness :
    Boolean_deserialize "flag" (Scalar.str "yes") = Except.ok (PyVal.bool true)
    ∧ Boolean_deserialize "flag" (Scalar.str "F") =
        Except.ok (PyVal.bool false)
    ∧ Boolean_deserialize "flag" (Scalar.int 1) = Except.ok (PyVal.bool true)
    ∧ Boolean_deserialize "flag" (Scalar.int 0) = Except.ok (PyVal.bool false)
    ∧ Boolean_deserialize "flag" (Scalar.bool true) =
        Except.ok (PyVal.bool true)
    ∧ Boolean_deserialize "flag" Scalar.none = Except.ok PyVal.none
    ∧ Boolean_deserialize "flag" (Scalar.str "maybe") =
        Except.error ⟨ErrKind.validation,
          "Field flag must be a boolean value"⟩
    ∧ Boolean_deserialize "flag" (Scalar.int 7) =
        Except.error ⟨ErrKind.validation,
          "Field flag must be a boolean value"⟩ :=
  ⟨(C8_boolean_sets "flag").1 "yes" (by decide),
   (C8_boolean_sets "flag").2.1 "F" (by decide) (by decide),
   (C8_boolean_sets "flag").2.2.1,
   (C8_boolean_sets "flag").2.2.2.1,
   (C8_boolean_sets "flag").2.2.2.2.1 true,
   (C8_boolean_sets "flag").2.2.2.2.2.1,
   (C8_boolean_sets "flag").2.2.2.2.2.2.1 "maybe" (by decide) (by decide),
   (C8_boolean_sets "flag").2.2.2.2.2.2.2 7 (by decide) (by decide)⟩

/-- C8 counterexample: the claim promises a TypeError for every value
outside the truthy and falsy sets, but Boolean._deserialize returns None
for a None input without failing. -/
theorem C8_counterexample :
    Boolean_deserialize "flag" Scalar.none = Except.ok PyVal.none
    ∧ Boolean_deserialize "flag" Scalar.none ≠
        Except.error ⟨ErrKind.validation,
          "Field flag must be a boolean value"⟩ := by
  refine ⟨rfl, ?_⟩
  intro h
  rw [show Boolean_deserialize "flag" Scalar.none = Except.ok PyVal.none
    from rfl] at h
  exact Except.noConfusion h

theorem ancestorRoot_isSome : ∀ (o : Owner), wellRooted o →
    (ancestorRoot o).isSome = true
  | Owner.ofSchema _, _ => rfl
  | Owner.ofField n (Option.some q) r, h => by
    have hq : wellRooted q := h.1
    show (ancestorRoot q).isSome = true
    exact ancestorRoot_isSome q hq
  | Owner.ofField _ Option.none _, h => h.elim

/-- C9: binding an unbound field sets its name, parent and root, the root
being the first non-field ancestor reached by following parent links, and
every later _bind_to_schema call, with any arguments, leaves the field
unchanged. -/
theorem C9_bind_assign_once (field_name : String) (owner : Owner)
    (hn : field_name ≠ "") (hw : wellRooted owner) :
    (bindToSchema unboundField field_name owner).name =
        Option.some field_name
    ∧ (bindToSchema unboundField field_name owner).parent =
        Option.some owner
    ∧ (bindToSchema unboundField field_name owner).root = ancestorRoot owner
    ∧ (∀ (n2 : String) (o2 : Owner),
        bindToSchema (bindToSchema unboundField field_name owner) n2 o2 =
          bindToSchema unboundField field_name owner) := by
  have hname : (bindToSchema unboundField field_name owner).name =
      Option.some field_name := rfl
  have hparent : (bindToSchema unboundField field_name owner).parent =
      Option.some owner := rfl
  have hroot : (bindToSchema unboundField field_name owner).root =
      ancestorRoot owner := by
    show parentRootExpr owner = ancestorRoot owner
    cases owner with
    | ofSchema sid => rfl
    | ofField n2 p r =>
      cases p with
      | some q =>
        obtain ⟨hq, hr⟩ : wellRooted q ∧ r = ancestorRoot q := hw
        show r = ancestorRoot q
        exact hr
      | none => exact hw.elim
  refine ⟨hname, hparent, hroot, ?_⟩
  intro n2 o2
  obtain ⟨r0, hr0⟩ := Option.isSome_iff_exists.mp
    (hroot ▸ ancestorRoot_isSome owner hw)
  have hb : bindToSchema unboundField field_name owner =
      ⟨Option.some field_name, Option.some owner, Option.some r0⟩ := by
    have h1 := hname
    have h2 := hparent
    cases hbind : bindToSchema unboundField field_name owner with
    | mk a b c =>
      rw [hbind] at h1 h2 hr0
      simp only at h1 h2 hr0
      rw [h1, h2, hr0]
  rw [hb]
  simp [bindToSchema, pyOrName, hn]

/-- Witness for C9: binding a fresh field to the schema 0 under the name x,
then rebinding with different arguments, changes nothing, and the root is
the schema itself. -/
theorem C9_witness :
    (bindToSchema unboundField "x" (Owner.ofSchema 0)).name =
        Option.some "x"
    ∧ (bindToSchema unboundField "x" (Owner.ofSchema 0)).root =
        ancestorRoot (Owner.ofSchema 0)
    ∧ bindToSchema (bindToSchema unboundField "x" (Owner.ofSchema 0)) "y"
        (Owner.ofSchema 1) = bindToSchema unboundField "x" (Owner.ofSchema 0) := by
  have h := C9_bind_assign_once "x" (Owner.ofSchema 0) (by decide) trivial
  exact ⟨h.1, h.2.2.1, h.2.2.2 "y" (Owner.ofSchema 1)⟩

/-- C6: a nested schema reference is not resolved at field construction
time (the cache slot starts None, so forward references by name work); the
first successful access resolves and stores exactly the returned instance;
and any access on a field with a cached instance returns that same
instance, leaves the state untouched, and runs no resolution at all - for
any registry whatsoever, so neither the registry, the factory, nor a
constructor is invoked again. -/
theorem C6_nested_lazy_memoized (ref : NestedRef) (many : Bool) :
    (nestedInit ref many)._schema = Option.none
    ∧ (∀ (reg : Registry) (out : SchemaInst) (st1 : NestedState) (b : Bool),
        schemaProp (nestedInit ref many) reg = Except.ok (out, st1, b) →
          st1._schema = Option.some out ∧ b = true)
    ∧ (∀ (st : NestedState) (s : SchemaInst), st._schema = Option.some s →
        ∀ reg : Registry, schemaProp st reg = Except.ok (s, st, false)) := by
  refine ⟨rfl, ?_, ?_⟩
  · intro reg out st1 b h
    cases ref with
    | inst s =>
      simp only [schemaProp, nestedInit, Except.ok.injEq, Prod.mk.injEq] at h
      obtain ⟨h1, h2, h3⟩ := h
      subst h1 h2 h3
      exact ⟨rfl, rfl⟩
    | cls c =>
      simp only [schemaProp, nestedInit, Except.ok.injEq, Prod.mk.injEq] at h
      obtain ⟨h1, h2, h3⟩ := h
      subst h1 h2 h3
      exact ⟨rfl, rfl⟩
    | byName n =>
      simp only [schemaProp, nestedInit] at h
      cases hg : get_class reg n with
      | error e =>
        rw [hg] at h
        exact Except.noConfusion h
      | ok c =>
        rw [hg] at h
        simp only [Except.ok.injEq, Prod.mk.injEq] at h
        obtain ⟨h1, h2, h3⟩ := h
        subst h1 h2 h3
        exact ⟨rfl, rfl⟩
    | factory fn =>
      simp only [schemaProp, nestedInit, Except.ok.injEq, Prod.mk.injEq] at h
      obtain ⟨h1, h2, h3⟩ := h
      subst h1 h2 h3
      exact ⟨rfl, rfl⟩
  · intro st s hs reg
    unfold schemaProp
    rw [hs]

/-- Witness for C6: a Nested field referencing schema B by name caches
nothing at construction; after the resolved instance is cached, access with
the EMPTY registry still returns the cached instance with no resolution. -/
theorem C6_witness :
    (nestedInit (NestedRef.byName "B") false)._schema = Option.none
    ∧ ((⟨NestedRef.byName "B", false,
          Option.some (mkSchemaInst ⟨"m", "B", 3⟩ false)⟩ :
          NestedState)._schema =
            Option.some (mkSchemaInst ⟨"m", "B", 3⟩ false)
        ∧ (true : Bool) = true)
    ∧ schemaProp
        ⟨NestedRef.byName "B", false,
          Option.some (mkSchemaInst ⟨"m", "B", 3⟩ false)⟩ emptyReg
      = Except.ok (mkSchemaInst ⟨"m", "B", 3⟩ false,
          ⟨NestedRef.byName "B", false,
            Option.some (mkSchemaInst ⟨"m", "B", 3⟩ false)⟩, false) := by
  refine ⟨(C6_nested_lazy_memoized (NestedRef.byName "B") false).1, ?_, ?_⟩
  · exact (C6_nested_lazy_memoized (NestedRef.byName "B") false).2.1
      (register emptyReg "B" ⟨"m", "B", 3⟩) (mkSchemaInst ⟨"m", "B", 3⟩ false)
      ⟨NestedRef.byName "B", false,
        Option.some (mkSchemaInst ⟨"m", "B", 3⟩ false)⟩ true rfl
  · exact (C6_nested_lazy_memoized (NestedRef.byName "B") false).2.2
      ⟨NestedRef.byName "B", false,
        Option.some (mkSchemaInst ⟨"m", "B", 3⟩ false)⟩
      (mkSchemaInst ⟨"m", "B", 3⟩ false) rfl emptyReg
